import Mathlib

/-!
Verification development for the Chronos streaming-audio core: the PCM codec
(`float32ToInt16PCM`, the forgiving base64 decode used by `atob`), the streaming
audio scheduler (`AudioStreamPlayer` in `src/utils/audioUtils.ts`), the live
session controller (`LiveManager.handleMessage` / `disconnect`), and the
note-update applier (`onNoteUpdate` in `src/components/VoiceRecorder.tsx`).

Device times and sample values are modelled as rationals; JS numbers on the
audio path carry exact values for the quantities the theorems speak about
(chunk durations are `samples / 24000`, start times are sums of such).
Asynchronous platform behaviour is made explicit: a playback source that was
started fires its `ended` event exactly once — also when it is halted by
`stop()` — which the event semantics below records in a `pendingEnded` set.
-/

namespace Chronos

/-- ASCII whitespace (TAB, LF, FF, CR, SPACE), removed by the forgiving-base64
decode that the platform `atob` implements (used by `decodeBase64` in
`src/utils/audioUtils.ts`). -/
def isAsciiWs (c : Char) : Bool :=
  c = ' ' || c = '\t' || c = '\n' || c = '\r' || c.toNat = 12

/-- Value of one base64 alphabet character; `none` for a character outside the
alphabet (which makes `atob` throw). -/
def base64Val (c : Char) : Option ℕ :=
  if 'A' ≤ c ∧ c ≤ 'Z' then some (c.toNat - 65)
  else if 'a' ≤ c ∧ c ≤ 'z' then some (c.toNat - 97 + 26)
  else if '0' ≤ c ∧ c ≤ '9' then some (c.toNat - 48 + 52)
  else if c = '+' then some 62
  else if c = '/' then some 63
  else none

/-- Remove one or two leading `=` from a reversed character list (the
trailing-padding strip of forgiving-base64). -/
def dropPadRev (l : List Char) : List Char :=
  if l.take 2 = ['=', '='] then l.drop 2
  else if l.take 1 = ['='] then l.drop 1
  else l

/-- Turn a list of 6-bit values into bytes: each group of four values yields
three bytes; a leftover pair yields one byte and a leftover triple two bytes
(leftover bits are discarded, as forgiving-base64 does). -/
def decodeQuads : List ℕ → List ℕ
  | v0 :: v1 :: v2 :: v3 :: rest =>
      (v0 * 4 + v1 / 16) :: ((v1 % 16) * 16 + v2 / 4) :: ((v2 % 4) * 64 + v3) ::
        decodeQuads rest
  | [v0, v1] => [v0 * 4 + v1 / 16]
  | [v0, v1, v2] => [v0 * 4 + v1 / 16, (v1 % 16) * 16 + v2 / 4]
  | _ => []

/-- Strip up to two trailing `=` when the length is a multiple of four
(step 2 of forgiving-base64). -/
def stripPad (data : List Char) : List Char :=
  if data.length % 4 = 0 then (dropPadRev data.reverse).reverse else data

/-- Look up every character in the base64 alphabet; `none` if any character
is outside it. -/
def mapBase64 : List Char → Option (List ℕ)
  | [] => some []
  | c :: cs =>
      match base64Val c, mapBase64 cs with
      | some v, some vs => some (v :: vs)
      | _, _ => none

/-- Function `decodeBase64` from `src/utils/audioUtils.ts`: `atob` (forgiving-base64)
followed by reading the code units into a byte array.  `none` models the
exception `atob` throws on malformed input. -/
def decodeBase64 (s : String) : Option (List ℕ) :=
  if (stripPad (s.toList.filter (fun c => !(isAsciiWs c)))).length % 4 = 1 then none
  else (mapBase64 (stripPad (s.toList.filter (fun c => !(isAsciiWs c))))).map decodeQuads

/-- Truncation toward zero, the JS number→integer conversion used when a
number is stored into an `Int16Array`. -/
def qtrunc (q : ℚ) : ℤ := if 0 ≤ q then ⌊q⌋ else ⌈q⌉

/-- Wrap an integer into the signed 16-bit range, as storing into an
`Int16Array` does. -/
def wrapInt16 (n : ℤ) : ℤ := (n + 32768) % 65536 - 32768

/-- Clamp `Math.max(-1, Math.min(1, x))` from `float32ToInt16PCM`. -/
def clamp1 (x : ℚ) : ℚ := max (-1) (min 1 x)

/-- One sample of `float32ToInt16PCM` (`src/utils/audioUtils.ts`): clamp to
[-1,1], scale negatives by 0x8000 and non-negatives by 0x7FFF, store as
int16. -/
def float32ToInt16PCM1 (x : ℚ) : ℤ :=
  let s := clamp1 x
  if s < 0 then wrapInt16 (qtrunc (s * 32768)) else wrapInt16 (qtrunc (s * 32767))

/-- Map `float32ToInt16PCM` over a whole buffer. -/
def float32ToInt16PCM (xs : List ℚ) : List ℤ := xs.map float32ToInt16PCM1

/-- Reading pairs of bytes as little-endian signed 16-bit integers (the
`Int16Array` view taken over the decoded bytes in `scheduleChunk`). -/
def bytesToInt16 : List ℕ → List ℤ
  | lo :: hi :: rest =>
      (if lo + 256 * hi < 32768 then ((lo + 256 * hi : ℕ) : ℤ)
       else ((lo + 256 * hi : ℕ) : ℤ) - 65536) :: bytesToInt16 rest
  | _ => []

/-- Int16→float decode used at `channelData[i] = dataInt16[i] / 32768.0`
(`scheduleChunk`, `src/utils/audioUtils.ts` line 152). -/
def int16ToFloat1 (i : ℤ) : ℚ := (i : ℚ) / 32768

/-- A scheduled audio-output source: one `AudioBufferSourceNode` with its
assigned start time and buffer duration (`samples / 24000` seconds). -/
structure PlaybackUnit where
  uid : ℕ
  start : ℚ
  dur : ℚ
  deriving DecidableEq, Repr

/-- The mutable state of `AudioStreamPlayer`: the `nextStartTime` cursor, the
`sources` array (by uid), the `isStopped` flag and `activeSourcesCount`.
`pendingEnded` records sources whose `onended` handler is registered and has
not fired yet (a started source fires it exactly once, also after a forced
`stop()`); `nextUid` is a fresh-name supply for sources. -/
structure PlayerState where
  nextStartTime : ℚ
  sources : List ℕ
  isStopped : Bool
  activeSourcesCount : ℤ
  pendingEnded : List ℕ
  nextUid : ℕ
  deriving DecidableEq, Repr

/-- The `AudioStreamPlayer` constructor: `nextStartTime = context.currentTime`,
no sources, not stopped. -/
def mkPlayer (currentTime : ℚ) : PlayerState :=
  ⟨currentTime, [], false, 0, [], 0⟩

/-- The number of samples `scheduleChunk` would obtain from a chunk: `none` if
the base64 decode throws, the byte count is odd, or there are zero samples;
otherwise `some` of the `Int16Array` view length. -/
def chunkSamples (c : String) : Option ℕ :=
  match decodeBase64 c with
  | none => none
  | some bs => if bs.length % 2 = 0 ∧ bs.length / 2 ≠ 0 then some (bs.length / 2) else none

/-- Method `AudioStreamPlayer.scheduleChunk`: no-op when stopped; decode (a thrown
decode error is caught); skip odd-byte and zero-sample chunks; clamp
`nextStartTime` forward to `currentTime`; start a source there; bump
`activeSourcesCount`, signalling `true` on the 0→1 transition; advance
`nextStartTime` by the buffer duration; push the source.  Returns the new
state, the emitted play-state signals, and the created unit if any. -/
def scheduleChunk (s : PlayerState) (currentTime : ℚ) (base64Audio : String) :
    PlayerState × List Bool × Option PlaybackUnit :=
  if s.isStopped then (s, [], none)
  else
    match decodeBase64 base64Audio with
    | none => (s, [], none)
    | some pcmData =>
      if pcmData.length % 2 ≠ 0 then (s, [], none)
      else
        let numSamples := pcmData.length / 2
        if numSamples = 0 then (s, [], none)
        else
          let dur : ℚ := (numSamples : ℚ) / 24000
          let start : ℚ := if s.nextStartTime < currentTime then currentTime else s.nextStartTime
          let u : PlaybackUnit := ⟨s.nextUid, start, dur⟩
          let count := s.activeSourcesCount + 1
          ({ nextStartTime := start + dur
             sources := s.sources ++ [u.uid]
             isStopped := false
             activeSourcesCount := count
             pendingEnded := s.pendingEnded ++ [u.uid]
             nextUid := s.nextUid + 1 },
           (if count = 1 then [true] else []), some u)

/-- The `onended` handler registered by `scheduleChunk`: decrement
`activeSourcesCount`, signal `false` on reaching zero, and splice the source
out of `sources` if still present. -/
def handleEnded (s : PlayerState) (uid : ℕ) : PlayerState × List Bool :=
  let count := s.activeSourcesCount - 1
  ({ s with activeSourcesCount := count
            sources := s.sources.erase uid
            pendingEnded := s.pendingEnded.erase uid },
   if count = 0 then [false] else [])

/-- Method `AudioStreamPlayer.stop`: set `isStopped`, halt and release every
in-flight source (returned as the third component), clear `sources`, zero the
counter, signal `false` unconditionally, reset `nextStartTime` to the current
device time.  The halted sources will still fire their `ended` events, so
`pendingEnded` is unchanged. -/
def stopPlayer (s : PlayerState) (currentTime : ℚ) :
    PlayerState × List Bool × List ℕ :=
  ({ nextStartTime := currentTime, sources := [], isStopped := true,
     activeSourcesCount := 0, pendingEnded := s.pendingEnded, nextUid := s.nextUid },
   [false], s.sources)

/-- The deferred `setTimeout(() => { this.isStopped = false; }, 100)` body of
`stop()`: the cooldown elapsing re-enables scheduling. -/
def cooldownElapsed (s : PlayerState) : PlayerState := { s with isStopped := false }

/-- Events delivered to an `AudioStreamPlayer`. -/
inductive PlayerEvent
  | schedule (currentTime : ℚ) (chunk : String)
  | ended (uid : ℕ)
  | stopCall (currentTime : ℚ)
  | cooldown
  deriving DecidableEq, Repr

/-- One event step: resulting state plus emitted play-state signals. -/
def stepEvent (s : PlayerState) : PlayerEvent → PlayerState × List Bool
  | .schedule t c => ((scheduleChunk s t c).1, (scheduleChunk s t c).2.1)
  | .ended uid => handleEnded s uid
  | .stopCall t => ((stopPlayer s t).1, (stopPlayer s t).2.1)
  | .cooldown => (cooldownElapsed s, [])

/-- Run a list of events. -/
def runTrace (s : PlayerState) : List PlayerEvent → PlayerState
  | [] => s
  | e :: es => runTrace (stepEvent s e).1 es

/-- A trace is valid when every `ended` event targets a source whose handler
is registered and has not fired yet (each started source fires exactly once). -/
def validTrace (s : PlayerState) : List PlayerEvent → Bool
  | [] => true
  | e :: es =>
      (match e with
       | .ended uid => s.pendingEnded.contains uid
       | _ => true) && validTrace (stepEvent s e).1 es

def isStopEvent : PlayerEvent → Bool
  | .stopCall _ => true
  | _ => false

/-- Run a sequence of `scheduleChunk` calls (time of call, chunk), collecting
the created units in order. -/
def runSched (s : PlayerState) : List (ℚ × String) → PlayerState × List PlaybackUnit
  | [] => (s, [])
  | e :: es =>
      let r := scheduleChunk s e.1 e.2
      let rest := runSched r.1 es
      (rest.1, r.2.2.toList ++ rest.2)

lemma scheduleChunk_stopped (s : PlayerState) (t : ℚ) (c : String)
    (hs : s.isStopped = true) : scheduleChunk s t c = (s, [], none) := by
  simp [scheduleChunk, hs]

lemma scheduleChunk_malformed (s : PlayerState) (t : ℚ) (c : String)
    (hc : chunkSamples c = none) : scheduleChunk s t c = (s, [], none) := by
  unfold scheduleChunk
  by_cases hs : s.isStopped
  · simp [hs]
  · simp only [hs, if_false, Bool.false_eq_true]
    unfold chunkSamples at hc
    cases hd : decodeBase64 c with
    | none => simp
    | some bs =>
        rw [hd] at hc
        by_cases he : bs.length % 2 = 0 ∧ bs.length / 2 ≠ 0
        · simp [he] at hc
        · rcases Decidable.not_and_iff_or_not.mp he with h1 | h2
          · simp [h1]
          · have h2' : bs.length / 2 = 0 := by
              by_contra h; exact h2 h
            by_cases hodd : bs.length % 2 = 0
            · simp [hodd, h2']
            · simp [hodd]

lemma scheduleChunk_accepted (s : PlayerState) (t : ℚ) (c : String) (k : ℕ)
    (hs : s.isStopped = false) (hk : chunkSamples c = some k) :
    scheduleChunk s t c =
      ({ nextStartTime := (if s.nextStartTime < t then t else s.nextStartTime) + (k : ℚ) / 24000,
         sources := s.sources ++ [s.nextUid],
         isStopped := false,
         activeSourcesCount := s.activeSourcesCount + 1,
         pendingEnded := s.pendingEnded ++ [s.nextUid],
         nextUid := s.nextUid + 1 },
       (if s.activeSourcesCount + 1 = 1 then [true] else []),
       some ⟨s.nextUid, if s.nextStartTime < t then t else s.nextStartTime, (k : ℚ) / 24000⟩) := by
  unfold chunkSamples at hk
  cases hd : decodeBase64 c with
  | none => rw [hd] at hk; exact absurd hk (by simp)
  | some bs =>
      rw [hd] at hk
      by_cases he : bs.length % 2 = 0 ∧ bs.length / 2 ≠ 0
      · have hkk : bs.length / 2 = k := by simpa [he] using hk
        have hk0 : ¬ k = 0 := hkk ▸ he.2
        unfold scheduleChunk
        simp [hs, hd, he.1, hk0, hkk]
      · simp [he] at hk

lemma scheduleChunk_cases (s : PlayerState) (t : ℚ) (c : String) :
    scheduleChunk s t c = (s, [], none) ∨
    (s.isStopped = false ∧ ∃ k, chunkSamples c = some k) := by
  by_cases hs : s.isStopped
  · exact Or.inl (scheduleChunk_stopped s t c hs)
  · cases hk : chunkSamples c with
    | none => exact Or.inl (scheduleChunk_malformed s t c hk)
    | some k => exact Or.inr ⟨by simpa using hs, k, rfl⟩

/-- A one-second chunk: 64000 base64 characters decoding to 48000 zero bytes,
i.e. 24000 int16 samples of 24000 Hz audio. -/
def chunkSecond : String := String.mk (List.replicate 64000 'A')

/-- A small well-formed chunk: 8 characters, 6 bytes, 3 samples. -/
def chunk8 : String := "AAAAAAAA"

lemma mapBase64_replicateA (n : ℕ) :
    mapBase64 (List.replicate n 'A') = some (List.replicate n 0) := by
  induction n with
  | zero => rfl
  | succ n ih =>
      simp [List.replicate_succ, mapBase64, ih,
        show base64Val 'A' = some 0 from by decide]

lemma decodeQuads_replicate (k : ℕ) :
    decodeQuads (List.replicate (4 * k) 0) = List.replicate (3 * k) 0 := by
  induction k with
  | zero => rfl
  | succ k ih =>
      rw [show 4 * (k + 1) = 4 * k + 1 + 1 + 1 + 1 from by ring,
          show 3 * (k + 1) = 3 * k + 1 + 1 + 1 from by ring]
      simp only [List.replicate_succ]
      simp [decodeQuads, ih]

lemma stripPad_replicateA :
    stripPad (List.replicate 64000 'A') = List.replicate 64000 'A' := by
  unfold stripPad
  rw [List.length_replicate, if_pos (by norm_num), List.reverse_replicate]
  unfold dropPadRev
  rw [List.take_replicate, show min 2 64000 = 2 from by norm_num, if_neg (by decide),
      List.take_replicate, show min 1 64000 = 1 from by norm_num, if_neg (by decide),
      List.reverse_replicate]

lemma decodeBase64_chunkSecond :
    decodeBase64 chunkSecond = some (List.replicate 48000 0) := by
  have htl : chunkSecond.toList = List.replicate 64000 'A' := rfl
  have hfil : (List.replicate 64000 'A').filter (fun c => !(isAsciiWs c)) =
      List.replicate 64000 'A' := List.filter_replicate_of_pos rfl
  unfold decodeBase64
  rw [htl, hfil, stripPad_replicateA, List.length_replicate, if_neg (by norm_num),
      mapBase64_replicateA, show (64000 : ℕ) = 4 * 16000 from by norm_num,
      Option.map_some', decodeQuads_replicate,
      show 3 * 16000 = 48000 from by norm_num]

lemma chunkSamples_of_decode (c : String) (bs : List ℕ) (n : ℕ)
    (h : decodeBase64 c = some bs) (hlen : bs.length = 2 * n) (hn : n ≠ 0) :
    chunkSamples c = some n := by
  unfold chunkSamples
  rw [h]
  show (if bs.length % 2 = 0 ∧ bs.length / 2 ≠ 0 then some (bs.length / 2) else none) = some n
  have h2 : (2 * n) % 2 = 0 := by omega
  have h3 : (2 * n) / 2 = n := by omega
  rw [hlen, if_pos ⟨h2, by rw [h3]; exact hn⟩, h3]

lemma chunkSamples_chunkSecond : chunkSamples chunkSecond = some 24000 :=
  chunkSamples_of_decode chunkSecond (List.replicate 48000 0) 24000
    decodeBase64_chunkSecond (by rw [List.length_replicate]) (by norm_num)

/-- Every run of `scheduleChunk` calls produces pairwise non-overlapping
units, each starting no earlier than the cursor it was scheduled from. -/
lemma runSched_inv (evs : List (ℚ × String)) :
    ∀ s : PlayerState,
      ((runSched s evs).2).Pairwise (fun a b => a.start + a.dur ≤ b.start) ∧
      ∀ u ∈ (runSched s evs).2, s.nextStartTime ≤ u.start := by
  induction evs with
  | nil => intro s; simp [runSched]
  | cons e es ih =>
      intro s
      rcases scheduleChunk_cases s e.1 e.2 with hrej | ⟨hs, k, hk⟩
      · simp only [runSched, hrej, Option.toList_none, List.nil_append]
        exact ih s
      · have hacc := scheduleChunk_accepted s e.1 e.2 k hs hk
        have hu : (scheduleChunk s e.1 e.2).2.2 =
            some ⟨s.nextUid, if s.nextStartTime < e.1 then e.1 else s.nextStartTime,
              (k : ℚ) / 24000⟩ := by rw [hacc]
        have hns' : (scheduleChunk s e.1 e.2).1.nextStartTime =
            (if s.nextStartTime < e.1 then e.1 else s.nextStartTime) + (k : ℚ) / 24000 := by
          rw [hacc]
        simp only [runSched, hu, Option.toList_some, List.singleton_append]
        have hih := ih (scheduleChunk s e.1 e.2).1
        have hstart : s.nextStartTime ≤
            (if s.nextStartTime < e.1 then e.1 else s.nextStartTime) := by
          split_ifs with h
          · exact le_of_lt h
          · exact le_refl _
        have hdur : (0 : ℚ) ≤ (k : ℚ) / 24000 := by positivity
        constructor
        · rw [List.pairwise_cons]
          refine ⟨fun u hu' => ?_, hih.1⟩
          have := hih.2 u hu'
          rw [hns'] at this
          simpa using this
        · intro u hu'
          rcases List.mem_cons.mp hu' with rfl | hu''
          · simpa using hstart
          · have := hih.2 u hu''
            rw [hns'] at this
            calc s.nextStartTime ≤ (if s.nextStartTime < e.1 then e.1 else s.nextStartTime) :=
                  hstart
              _ ≤ (if s.nextStartTime < e.1 then e.1 else s.nextStartTime) + (k : ℚ) / 24000 :=
                  le_add_of_nonneg_right hdur
              _ ≤ u.start := this

/-- Outside of `stop()`, `activeSourcesCount` always equals the number of
started sources whose `ended` event has not fired yet. -/
lemma countInv_step (s : PlayerState) (e : PlayerEvent)
    (hinv : s.activeSourcesCount = s.pendingEnded.length)
    (hv : (match e with
           | .ended uid => s.pendingEnded.contains uid
           | _ => true) = true)
    (hns : isStopEvent e = false) :
    (stepEvent s e).1.activeSourcesCount = (stepEvent s e).1.pendingEnded.length := by
  cases e with
  | schedule t c =>
      rcases scheduleChunk_cases s t c with hrej | ⟨hs, k, hk⟩
      · simp [stepEvent, hrej, hinv]
      · simp [stepEvent, scheduleChunk_accepted s t c k hs hk, hinv]
  | ended uid =>
      have hmem : uid ∈ s.pendingEnded := by simpa using hv
      have hlen : (s.pendingEnded.erase uid).length = s.pendingEnded.length - 1 :=
        List.length_erase_of_mem hmem
      have hpos : 0 < s.pendingEnded.length := List.length_pos.mpr (List.ne_nil_of_mem hmem)
      simp only [stepEvent, handleEnded, hlen, hinv]
      omega
  | stopCall t => simp [isStopEvent] at hns
  | cooldown => simp [stepEvent, cooldownElapsed, hinv]

lemma countInv_runTrace (evs : List PlayerEvent) :
    ∀ s : PlayerState, s.activeSourcesCount = s.pendingEnded.length →
      validTrace s evs = true → (∀ e ∈ evs, isStopEvent e = false) →
      (runTrace s evs).activeSourcesCount = (runTrace s evs).pendingEnded.length := by
  induction evs with
  | nil => intro s h _ _; simpa [runTrace] using h
  | cons e es ih =>
      intro s h hv hns
      simp only [validTrace, Bool.and_eq_true] at hv
      exact ih (stepEvent s e).1 (countInv_step s e h hv.1 (hns e (List.mem_cons_self e es)))
        hv.2 (fun e' he' => hns e' (List.mem_cons_of_mem e he'))

lemma wrapInt16_eq_self (n : ℤ) (h1 : -32768 ≤ n) (h2 : n ≤ 32767) :
    wrapInt16 n = n := by
  unfold wrapInt16
  rw [Int.emod_eq_of_lt (by omega) (by omega)]
  omega

/-! ### The live session controller (`LiveManager`, `src/unnamed/part_001`) -/

/-- The argument bag `fc.args` of a tool invocation.  Each field is `none`
when the model omitted it (`undefined` in JS). -/
structure ToolArgs where
  content : Option String := none
  noteId : Option String := none
  newContent : Option String := none
  type : Option String := none
  isTracking : Option Bool := none
  isReminder : Option Bool := none
  reminderTime : Option String := none
  visualPrompt : Option String := none
  deriving DecidableEq, Repr

/-- The sparse update record `LiveManager.handleMessage` passes to
`onNoteUpdate` for an `updateNote` call. -/
structure NoteUpdates where
  content : Option String
  type : Option String
  isTracking : Option Bool
  isReminder : Option Bool
  reminderTime : Option String
  visualPrompt : Option String
  deriving DecidableEq, Repr

/-- The field mapping at the `updateNote` branch of `handleMessage`
(`content: args.newContent`, and the rest passed through). -/
def mkUpdates (args : ToolArgs) : NoteUpdates :=
  ⟨args.newContent, args.type, args.isTracking, args.isReminder,
   args.reminderTime, args.visualPrompt⟩

/-- The record `handleMessage` passes to `onNoteCreate` for a `createNote`
call. -/
structure CreateFields where
  content : Option String
  type : Option String
  isReminder : Option Bool
  reminderTime : Option String
  visualPrompt : Option String
  deriving DecidableEq, Repr

def mkCreate (args : ToolArgs) : CreateFields :=
  ⟨args.content, args.type, args.isReminder, args.reminderTime, args.visualPrompt⟩

/-- One named call of a tool-invocation message: `{ id, name, args }`. -/
structure FunctionCall where
  id : String
  name : String
  args : ToolArgs
  deriving DecidableEq, Repr

/-- A dispatch to one of the registered note-store callbacks. -/
inductive Dispatched
  | create (fields : CreateFields)
  | update (noteId : Option String) (updates : NoteUpdates)
  deriving DecidableEq, Repr

/-- An acknowledgment sent by `sendToolResponse`:
`{ id, name, response: { result } }`. -/
structure Ack where
  id : String
  name : String
  response : String
  deriving DecidableEq, Repr

/-- Which callback (if any) a call's name selects in `handleMessage`. -/
def callDispatch (fc : FunctionCall) : Option Dispatched :=
  if fc.name = "createNote" then some (.create (mkCreate fc.args))
  else if fc.name = "updateNote" then some (.update fc.args.noteId (mkUpdates fc.args))
  else none

/-- The `result` string: initialised to `"Success"` and overwritten by the
matching branches. -/
def resultFor (name : String) : String :=
  if name = "createNote" then ("Note created.")
  else if name = "updateNote" then ("Note updated.")
  else ("Success")

def ackOf (fc : FunctionCall) : Ack := ⟨fc.id, fc.name, resultFor fc.name⟩

/-- The `for (const fc of message.toolCall.functionCalls)` loop of
`handleMessage`.  `throws d = true` models the local callback throwing on
dispatch `d`: the loop body has no try/catch, so the exception aborts the
remaining iterations and no acknowledgment is queued for that call.  The
acknowledgment is queued on `this.sessionPromise?.then`, hence only when a
session promise exists (`sessionOpen`).  Returns (dispatches made, acks
queued, whether an exception escaped). -/
def processCalls (sessionOpen : Bool) (throws : Dispatched → Bool) :
    List FunctionCall → List Dispatched × List Ack × Bool
  | [] => ([], [], false)
  | fc :: rest =>
      match callDispatch fc with
      | some d =>
          if throws d then ([d], [], true)
          else
            ((d :: (processCalls sessionOpen throws rest).1,
              (if sessionOpen then [ackOf fc] else []) ++
                (processCalls sessionOpen throws rest).2.1,
              (processCalls sessionOpen throws rest).2.2))
      | none =>
          (((processCalls sessionOpen throws rest).1,
            (if sessionOpen then [ackOf fc] else []) ++
              (processCalls sessionOpen throws rest).2.1,
            (processCalls sessionOpen throws rest).2.2))

/-- One `LiveServerMessage` as far as `handleMessage` inspects it: the first
part's inline audio data, the tool-call list, and the interruption flag. -/
structure LiveServerMessage where
  audioData : Option String
  toolCalls : Option (List FunctionCall)
  interrupted : Bool

/-- The observable outcome of one `handleMessage` invocation. -/
structure HandleOut where
  player : Option PlayerState
  playerSignals : List Bool
  halted : List ℕ
  audioOutputSignal : Bool
  dispatched : List Dispatched
  acks : List Ack
  aborted : Bool

/-- Method `LiveManager.handleMessage`: (1) a truthy audio part raises the
audio-output signal and is forwarded to `scheduleChunk`; (2) tool calls are
processed in order (an exception escaping a callback aborts the rest of the
handler); (3) an interruption signal invokes the scheduler's `stop()`. -/
def handleMessage (sessionOpen : Bool) (throws : Dispatched → Bool)
    (player : Option PlayerState) (currentTime : ℚ) (msg : LiveServerMessage) :
    HandleOut :=
  let audioOut : Bool := match msg.audioData with
    | some a => a != ""
    | none => false
  let p1 : Option PlayerState × List Bool :=
    if audioOut then
      match player, msg.audioData with
      | some p, some a => ((scheduleChunk p currentTime a).1, (scheduleChunk p currentTime a).2.1)
      | _, _ => (player, [])
    else (player, [])
  let tc := match msg.toolCalls with
    | some calls => processCalls sessionOpen throws calls
    | none => ([], [], false)
  if tc.2.2 then
    { player := p1.1, playerSignals := p1.2, halted := [], audioOutputSignal := audioOut,
      dispatched := tc.1, acks := tc.2.1, aborted := true }
  else if msg.interrupted then
    match p1.1 with
    | some p =>
        { player := some (stopPlayer p currentTime).1,
          playerSignals := p1.2 ++ (stopPlayer p currentTime).2.1,
          halted := (stopPlayer p currentTime).2.2,
          audioOutputSignal := audioOut, dispatched := tc.1, acks := tc.2.1, aborted := false }
    | none =>
        { player := none, playerSignals := p1.2, halted := [], audioOutputSignal := audioOut,
          dispatched := tc.1, acks := tc.2.1, aborted := false }
  else
    { player := p1.1, playerSignals := p1.2, halted := [], audioOutputSignal := audioOut,
      dispatched := tc.1, acks := tc.2.1, aborted := false }

/-! ### The note-update applier (`onNoteUpdate`, `src/components/VoiceRecorder.tsx`) -/

/-- The note fields touched by `onNoteUpdate`. -/
structure Note where
  content : String
  type : String
  isTracking : Option Bool
  stepCount : Option ℕ
  isReminder : Option Bool
  reminderDate : Option ℚ
  reminderDismissed : Option Bool
  notificationsSent : List String
  imageUrl : Option String
  isGeneratingImage : Option Bool
  deriving DecidableEq, Repr

/-- JS truthiness of an optional string (`undefined` and `""` are falsy). -/
def truthyStr : Option String → Bool
  | some s => s ≠ ""
  | none => false

/-- Step `if (updates.content) u.content = updates.content` (truthiness check). -/
def applyContentStep (uc : Option String) (n : Note) : Note :=
  match uc with
  | some c => if c ≠ "" then { n with content := c } else n
  | none => n

/-- Step `if (updates.type) u.type = updates.type`. -/
def applyTypeStep (ut : Option String) (n : Note) : Note :=
  match ut with
  | some t => if t ≠ "" then { n with type := t } else n
  | none => n

/-- Step `if (updates.isTracking !== undefined) u.isTracking = updates.isTracking`. -/
def applyTrackingStep (utr : Option Bool) (n : Note) : Note :=
  match utr with
  | some b => { n with isTracking := some b }
  | none => n

/-- The `if (finalSteps !== null)` block: force-stop the tracker, record the
final step count, and append it to the content when the resulting type is
`'text'`. -/
def applyFinalStep (finalSteps : Option ℕ) (n : Note) : Note :=
  match finalSteps with
  | some fs =>
      if n.type = "text" then
        { n with isTracking := some false, stepCount := some fs,
                 content := n.content ++ " \n(Final Count: " ++ toString fs ++ " steps)" }
      else { n with isTracking := some false, stepCount := some fs }
  | none => n

/-- Step for `updates.reminderTime`: when truthy and the date parses, set the reminder fields. -/
def applyReminderTimeStep (parseTime : String → Option ℚ) (urt : Option String)
    (n : Note) : Note :=
  match urt with
  | some rt =>
      if rt ≠ "" then
        match parseTime rt with
        | some t => { n with reminderDate := some t, isReminder := some true,
                             reminderDismissed := some false, notificationsSent := [] }
        | none => n
      else n
  | none => n

/-- Step `if (updates.isReminder !== undefined)`: set the flag and clear the date when false. -/
def applyIsReminderStep (ur : Option Bool) (n : Note) : Note :=
  match ur with
  | some b =>
      if b = false then { n with isReminder := some b, reminderDate := none }
      else { n with isReminder := some b }
  | none => n

/-- Step `if (updates.visualPrompt)` (the asynchronous illustration that
later fills `imageUrl` is outside this synchronous step). -/
def applyVisualStep (uv : Option String) (n : Note) : Note :=
  match uv with
  | some vp =>
      if vp ≠ "" then
        if vp = "REMOVE_IMAGE" then { n with imageUrl := none, isGeneratingImage := some false }
        else { n with isGeneratingImage := some true }
      else n
  | none => n

/-- Guard `const shouldStop = (updates.isTracking === false) || (updates.type &&
updates.type !== 'tracker')` guarded by `activeTrackerNoteId.current ===
noteId`. -/
def shouldStopTracker (isActiveTracker : Bool) (updates : NoteUpdates) : Bool :=
  isActiveTracker &&
    (updates.isTracking == some false ||
     (truthyStr updates.type && updates.type != some ("tracker")))

/-- The `onNoteUpdate` callback of `VoiceRecorder` applied to the matching
note, as the source's sequence of in-place mutations: content, type,
isTracking, the tracker-stop side effect, reminder time, isReminder flag,
visual prompt — in that order.  `isActiveTracker` models
`activeTrackerNoteId.current === noteId`; `trackerSteps` is what
`stepTracker.current?.stop() || 0` returns; `parseTime` is
`new Date(·).getTime()` with `NaN` as `none`. -/
def applyNoteUpdate (isActiveTracker : Bool) (trackerSteps : ℕ)
    (parseTime : String → Option ℚ) (n : Note) (updates : NoteUpdates) : Note :=
  applyVisualStep updates.visualPrompt
    (applyIsReminderStep updates.isReminder
      (applyReminderTimeStep parseTime updates.reminderTime
        (applyFinalStep
          (if shouldStopTracker isActiveTracker updates then some trackerSteps else none)
          (applyTrackingStep updates.isTracking
            (applyTypeStep updates.type
              (applyContentStep updates.content n))))))

@[simp] lemma applyContentStep_none (n : Note) : applyContentStep none n = n := rfl

@[simp] lemma applyTypeStep_none (n : Note) : applyTypeStep none n = n := rfl

@[simp] lemma applyTrackingStep_none (n : Note) : applyTrackingStep none n = n := rfl

@[simp] lemma applyFinalStep_none (n : Note) : applyFinalStep none n = n := rfl

@[simp] lemma applyReminderTimeStep_none (parseTime : String → Option ℚ) (n : Note) :
    applyReminderTimeStep parseTime none n = n := rfl

@[simp] lemma applyIsReminderStep_none (n : Note) : applyIsReminderStep none n = n := rfl

@[simp] lemma applyVisualStep_none (n : Note) : applyVisualStep none n = n := rfl

@[simp] lemma shouldStopTracker_false (u : NoteUpdates) :
    shouldStopTracker false u = false := rfl

@[simp] lemma applyTypeStep_content (ut : Option String) (n : Note) :
    (applyTypeStep ut n).content = n.content := by
  cases ut with
  | none => rfl
  | some t => by_cases h : t = "" <;> simp [applyTypeStep, h]

@[simp] lemma applyTrackingStep_content (utr : Option Bool) (n : Note) :
    (applyTrackingStep utr n).content = n.content := by
  cases utr <;> rfl

@[simp] lemma applyReminderTimeStep_content (parseTime : String → Option ℚ)
    (urt : Option String) (n : Note) :
    (applyReminderTimeStep parseTime urt n).content = n.content := by
  cases urt with
  | none => rfl
  | some rt =>
      by_cases h : rt = "" <;> simp [applyReminderTimeStep, h] <;>
        cases parseTime rt <;> rfl

@[simp] lemma applyIsReminderStep_content (ur : Option Bool) (n : Note) :
    (applyIsReminderStep ur n).content = n.content := by
  rcases ur with _ | b
  · rfl
  · cases b <;> rfl

@[simp] lemma applyVisualStep_content (uv : Option String) (n : Note) :
    (applyVisualStep uv n).content = n.content := by
  cases uv with
  | none => rfl
  | some vp =>
      by_cases h : vp = "" <;> by_cases h2 : vp = "REMOVE_IMAGE" <;>
        simp [applyVisualStep, h, h2]

@[simp] lemma applyContentStep_type (uc : Option String) (n : Note) :
    (applyContentStep uc n).type = n.type := by
  cases uc with
  | none => rfl
  | some c => by_cases h : c = "" <;> simp [applyContentStep, h]

@[simp] lemma applyTrackingStep_type (utr : Option Bool) (n : Note) :
    (applyTrackingStep utr n).type = n.type := by
  cases utr <;> rfl

@[simp] lemma applyReminderTimeStep_type (parseTime : String → Option ℚ)
    (urt : Option String) (n : Note) :
    (applyReminderTimeStep parseTime urt n).type = n.type := by
  cases urt with
  | none => rfl
  | some rt =>
      by_cases h : rt = "" <;> simp [applyReminderTimeStep, h] <;>
        cases parseTime rt <;> rfl

@[simp] lemma applyIsReminderStep_type (ur : Option Bool) (n : Note) :
    (applyIsReminderStep ur n).type = n.type := by
  rcases ur with _ | b
  · rfl
  · cases b <;> rfl

@[simp] lemma applyVisualStep_type (uv : Option String) (n : Note) :
    (applyVisualStep uv n).type = n.type := by
  cases uv with
  | none => rfl
  | some vp =>
      by_cases h : vp = "" <;> by_cases h2 : vp = "REMOVE_IMAGE" <;>
        simp [applyVisualStep, h, h2]

@[simp] lemma applyContentStep_isTracking (uc : Option String) (n : Note) :
    (applyContentStep uc n).isTracking = n.isTracking := by
  cases uc with
  | none => rfl
  | some c => by_cases h : c = "" <;> simp [applyContentStep, h]

@[simp] lemma applyTypeStep_isTracking (ut : Option String) (n : Note) :
    (applyTypeStep ut n).isTracking = n.isTracking := by
  cases ut with
  | none => rfl
  | some t => by_cases h : t = "" <;> simp [applyTypeStep, h]

@[simp] lemma applyReminderTimeStep_isTracking (parseTime : String → Option ℚ)
    (urt : Option String) (n : Note) :
    (applyReminderTimeStep parseTime urt n).isTracking = n.isTracking := by
  cases urt with
  | none => rfl
  | some rt =>
      by_cases h : rt = "" <;> simp [applyReminderTimeStep, h] <;>
        cases parseTime rt <;> rfl

@[simp] lemma applyIsReminderStep_isTracking (ur : Option Bool) (n : Note) :
    (applyIsReminderStep ur n).isTracking = n.isTracking := by
  rcases ur with _ | b
  · rfl
  · cases b <;> rfl

@[simp] lemma applyVisualStep_isTracking (uv : Option String) (n : Note) :
    (applyVisualStep uv n).isTracking = n.isTracking := by
  cases uv with
  | none => rfl
  | some vp =>
      by_cases h : vp = "" <;> by_cases h2 : vp = "REMOVE_IMAGE" <;>
        simp [applyVisualStep, h, h2]

@[simp] lemma applyContentStep_isReminder (uc : Option String) (n : Note) :
    (applyContentStep uc n).isReminder = n.isReminder := by
  cases uc with
  | none => rfl
  | some c => by_cases h : c = "" <;> simp [applyContentStep, h]

@[simp] lemma applyTypeStep_isReminder (ut : Option String) (n : Note) :
    (applyTypeStep ut n).isReminder = n.isReminder := by
  cases ut with
  | none => rfl
  | some t => by_cases h : t = "" <;> simp [applyTypeStep, h]

@[simp] lemma applyTrackingStep_isReminder (utr : Option Bool) (n : Note) :
    (applyTrackingStep utr n).isReminder = n.isReminder := by
  cases utr <;> rfl

@[simp] lemma applyVisualStep_isReminder (uv : Option String) (n : Note) :
    (applyVisualStep uv n).isReminder = n.isReminder := by
  cases uv with
  | none => rfl
  | some vp =>
      by_cases h : vp = "" <;> by_cases h2 : vp = "REMOVE_IMAGE" <;>
        simp [applyVisualStep, h, h2]

@[simp] lemma applyContentStep_reminderDate (uc : Option String) (n : Note) :
    (applyContentStep uc n).reminderDate = n.reminderDate := by
  cases uc with
  | none => rfl
  | some c => by_cases h : c = "" <;> simp [applyContentStep, h]

@[simp] lemma applyTypeStep_reminderDate (ut : Option String) (n : Note) :
    (applyTypeStep ut n).reminderDate = n.reminderDate := by
  cases ut with
  | none => rfl
  | some t => by_cases h : t = "" <;> simp [applyTypeStep, h]

@[simp] lemma applyTrackingStep_reminderDate (utr : Option Bool) (n : Note) :
    (applyTrackingStep utr n).reminderDate = n.reminderDate := by
  cases utr <;> rfl

@[simp] lemma applyIsReminderStep_some_true_reminderDate (n : Note) :
    (applyIsReminderStep (some true) n).reminderDate = n.reminderDate := rfl

@[simp] lemma applyVisualStep_reminderDate (uv : Option String) (n : Note) :
    (applyVisualStep uv n).reminderDate = n.reminderDate := by
  cases uv with
  | none => rfl
  | some vp =>
      by_cases h : vp = "" <;> by_cases h2 : vp = "REMOVE_IMAGE" <;>
        simp [applyVisualStep, h, h2]

@[simp] lemma applyContentStep_imageUrl (uc : Option String) (n : Note) :
    (applyContentStep uc n).imageUrl = n.imageUrl ∧
    (applyContentStep uc n).isGeneratingImage = n.isGeneratingImage := by
  cases uc with
  | none => exact ⟨rfl, rfl⟩
  | some c => by_cases h : c = "" <;> simp [applyContentStep, h]

@[simp] lemma applyTypeStep_imageUrl (ut : Option String) (n : Note) :
    (applyTypeStep ut n).imageUrl = n.imageUrl ∧
    (applyTypeStep ut n).isGeneratingImage = n.isGeneratingImage := by
  cases ut with
  | none => exact ⟨rfl, rfl⟩
  | some t => by_cases h : t = "" <;> simp [applyTypeStep, h]

@[simp] lemma applyTrackingStep_imageUrl (utr : Option Bool) (n : Note) :
    (applyTrackingStep utr n).imageUrl = n.imageUrl ∧
    (applyTrackingStep utr n).isGeneratingImage = n.isGeneratingImage := by
  cases utr <;> exact ⟨rfl, rfl⟩

@[simp] lemma applyReminderTimeStep_imageUrl (parseTime : String → Option ℚ)
    (urt : Option String) (n : Note) :
    (applyReminderTimeStep parseTime urt n).imageUrl = n.imageUrl ∧
    (applyReminderTimeStep parseTime urt n).isGeneratingImage = n.isGeneratingImage := by
  cases urt with
  | none => exact ⟨rfl, rfl⟩
  | some rt =>
      by_cases h : rt = "" <;> simp [applyReminderTimeStep, h] <;>
        cases parseTime rt <;> exact ⟨rfl, rfl⟩

@[simp] lemma applyIsReminderStep_imageUrl (ur : Option Bool) (n : Note) :
    (applyIsReminderStep ur n).imageUrl = n.imageUrl ∧
    (applyIsReminderStep ur n).isGeneratingImage = n.isGeneratingImage := by
  rcases ur with _ | b
  · exact ⟨rfl, rfl⟩
  · cases b <;> exact ⟨rfl, rfl⟩

/-! ### `LiveManager.disconnect` -/

/-- The nullable resources `disconnect` tears down (`true` = held). -/
structure LMState where
  processor : Bool
  mediaStream : Bool
  inputAudioContext : Bool
  outputAudioContext : Bool
  sessionPromise : Bool
  deriving DecidableEq, Repr

/-- Method `LiveManager.disconnect`: unconditionally disconnects/stops/closes and
nulls every resource, then calls `onStatusChange(false)` — on every
invocation. -/
def disconnect (_s : LMState) : LMState × List Bool :=
  (⟨false, false, false, false, false⟩, [false])

/-! ### Claims -/

/-- C1: While the scheduler is not stopped, each accepted chunk's unit starts
at the previous `nextStartTime` unless the device time has advanced past it,
in which case it starts exactly at the device time; hence chunk i+1 starts at
chunk i's end (or at device time if later), the assigned start and the
updated `nextStartTime` never fall behind the device time of the call, no two
scheduled units ever overlap, and scheduling three 24000-sample chunks
back-to-back from a fresh player advances `nextStartTime` by exactly 3
seconds with zero gaps between the units. -/
theorem c1_gapless_scheduling :
    (∀ (s : PlayerState) (t : ℚ) (c : String) (k : ℕ),
      s.isStopped = false → chunkSamples c = some k →
      ∃ u : PlaybackUnit,
        (scheduleChunk s t c).2.2 = some u ∧
        u.start = (if s.nextStartTime < t then t else s.nextStartTime) ∧
        u.dur = (k : ℚ) / 24000 ∧ t ≤ u.start ∧
        (scheduleChunk s t c).1.nextStartTime = u.start + u.dur ∧
        t ≤ (scheduleChunk s t c).1.nextStartTime)
    ∧ (∀ (s : PlayerState) (t t' : ℚ) (c c' : String) (k k' : ℕ),
      s.isStopped = false → chunkSamples c = some k → chunkSamples c' = some k' →
      ∃ u u' : PlaybackUnit,
        (scheduleChunk s t c).2.2 = some u ∧
        (scheduleChunk ((scheduleChunk s t c).1) t' c').2.2 = some u' ∧
        u'.start = (if u.start + u.dur < t' then t' else u.start + u.dur) ∧
        u.start + u.dur ≤ u'.start)
    ∧ (∀ (s : PlayerState) (evs : List (ℚ × String)),
      ((runSched s evs).2).Pairwise (fun a b => a.start + a.dur ≤ b.start))
    ∧ (∀ t0 : ℚ,
      (runSched (mkPlayer t0)
          [(t0, chunkSecond), (t0, chunkSecond), (t0, chunkSecond)]).1.nextStartTime = t0 + 3 ∧
      (runSched (mkPlayer t0)
          [(t0, chunkSecond), (t0, chunkSecond), (t0, chunkSecond)]).2 =
        [⟨0, t0, 1⟩, ⟨1, t0 + 1, 1⟩, ⟨2, t0 + 2, 1⟩]) := by
  have hdur : ∀ k : ℕ, (0 : ℚ) ≤ (k : ℚ) / 24000 := fun k => by positivity
  have hstart : ∀ (a t : ℚ), t ≤ (if a < t then t else a) := by
    intro a t
    split_ifs with h
    · exact le_refl t
    · exact le_of_not_lt h
  have part1 : ∀ (s : PlayerState) (t : ℚ) (c : String) (k : ℕ),
      s.isStopped = false → chunkSamples c = some k →
      ∃ u : PlaybackUnit,
        (scheduleChunk s t c).2.2 = some u ∧
        u.start = (if s.nextStartTime < t then t else s.nextStartTime) ∧
        u.dur = (k : ℚ) / 24000 ∧ t ≤ u.start ∧
        (scheduleChunk s t c).1.nextStartTime = u.start + u.dur ∧
        t ≤ (scheduleChunk s t c).1.nextStartTime := by
    intro s t c k hs hk
    have hacc := scheduleChunk_accepted s t c k hs hk
    refine ⟨⟨s.nextUid, if s.nextStartTime < t then t else s.nextStartTime, (k : ℚ) / 24000⟩,
      by rw [hacc], rfl, rfl, hstart s.nextStartTime t, by rw [hacc], ?_⟩
    rw [hacc]
    exact le_trans (hstart s.nextStartTime t) (le_add_of_nonneg_right (hdur k))
  refine ⟨part1, ?_, ?_, ?_⟩
  · intro s t t' c c' k k' hs hk hk'
    obtain ⟨u, hu, hust, hud, _, hns, _⟩ := part1 s t c k hs hk
    have hs1 : (scheduleChunk s t c).1.isStopped = false := by
      rw [scheduleChunk_accepted s t c k hs hk]
    obtain ⟨u', hu', hust', _, _, _, _⟩ := part1 ((scheduleChunk s t c).1) t' c' k' hs1 hk'
    refine ⟨u, u', hu, hu', ?_, ?_⟩
    · rw [hust', hns]
    · rw [hust', hns]
      split_ifs with h
      · exact le_of_lt h
      · exact le_refl _
  · intro s evs
    exact (runSched_inv evs s).1
  · intro t0
    have e1 : scheduleChunk (mkPlayer t0) t0 chunkSecond =
        ({ nextStartTime := t0 + 1, sources := [0], isStopped := false,
           activeSourcesCount := 1, pendingEnded := [0], nextUid := 1 }, [true],
         some ⟨0, t0, 1⟩) := by
      rw [scheduleChunk_accepted (mkPlayer t0) t0 chunkSecond 24000 rfl chunkSamples_chunkSecond]
      norm_num [mkPlayer]
    have e2 : scheduleChunk
        { nextStartTime := t0 + 1, sources := [0], isStopped := false,
          activeSourcesCount := 1, pendingEnded := [0], nextUid := 1 } t0 chunkSecond =
        ({ nextStartTime := t0 + 2, sources := [0, 1], isStopped := false,
           activeSourcesCount := 2, pendingEnded := [0, 1], nextUid := 2 }, [],
         some ⟨1, t0 + 1, 1⟩) := by
      rw [scheduleChunk_accepted _ t0 chunkSecond 24000 rfl chunkSamples_chunkSecond]
      have hlt : ¬ (t0 + 1 < t0) := by linarith
      norm_num [hlt]
      ring
    have e3 : scheduleChunk
        { nextStartTime := t0 + 2, sources := [0, 1], isStopped := false,
          activeSourcesCount := 2, pendingEnded := [0, 1], nextUid := 2 } t0 chunkSecond =
        ({ nextStartTime := t0 + 3, sources := [0, 1, 2], isStopped := false,
           activeSourcesCount := 3, pendingEnded := [0, 1, 2], nextUid := 3 }, [],
         some ⟨2, t0 + 2, 1⟩) := by
      rw [scheduleChunk_accepted _ t0 chunkSecond 24000 rfl chunkSamples_chunkSecond]
      have hlt : ¬ (t0 + 2 < t0) := by linarith
      norm_num [hlt]
      ring
    constructor
    · simp [runSched, e1, e2, e3]
    · simp [runSched, e1, e2, e3]

/-- C1 witness: the per-call contract instantiated on a fresh player and a
concrete well-formed chunk. -/
theorem c1_gapless_scheduling_witness :
    (mkPlayer 0).isStopped = false ∧ chunkSamples chunk8 = some 3 ∧
    ∃ u : PlaybackUnit,
      (scheduleChunk (mkPlayer 0) 0 chunk8).2.2 = some u ∧
      u.start = (if (mkPlayer 0).nextStartTime < 0 then 0 else (mkPlayer 0).nextStartTime) ∧
      u.dur = ((3 : ℕ) : ℚ) / 24000 ∧ (0 : ℚ) ≤ u.start ∧
      (scheduleChunk (mkPlayer 0) 0 chunk8).1.nextStartTime = u.start + u.dur ∧
      (0 : ℚ) ≤ (scheduleChunk (mkPlayer 0) 0 chunk8).1.nextStartTime :=
  ⟨rfl, by decide, c1_gapless_scheduling.1 (mkPlayer 0) 0 chunk8 3 rfl (by decide)⟩

/-- C4: A `scheduleChunk` call while `isStopped` is set — in particular at
any point after `stop()` and before the cooldown has elapsed — is silently
dropped: no unit is created, no signal is emitted, and the state is
unchanged.  Once the cooldown elapses (which only clears `isStopped`), an
identical call with a well-formed chunk succeeds and creates a unit of the
expected duration. -/
theorem c4_stop_cooldown :
    (∀ (s : PlayerState) (t : ℚ) (c : String),
      s.isStopped = true → scheduleChunk s t c = (s, [], none))
    ∧ (∀ (s : PlayerState) (t : ℚ), ((stopPlayer s t).1).isStopped = true)
    ∧ (∀ (s : PlayerState) (t t' : ℚ) (c : String),
      scheduleChunk (stopPlayer s t).1 t' c = ((stopPlayer s t).1, [], none))
    ∧ (∀ s : PlayerState, cooldownElapsed s = { s with isStopped := false })
    ∧ (∀ (s : PlayerState) (t t' : ℚ) (c : String) (k : ℕ), chunkSamples c = some k →
      ∃ u : PlaybackUnit,
        (scheduleChunk (cooldownElapsed (stopPlayer s t).1) t' c).2.2 = some u ∧
        u.dur = (k : ℚ) / 24000) := by
  refine ⟨fun s t c hs => scheduleChunk_stopped s t c hs, fun s t => rfl,
    fun s t t' c => scheduleChunk_stopped _ t' c rfl, fun s => rfl, ?_⟩
  intro s t t' c k hk
  have hacc := scheduleChunk_accepted (cooldownElapsed (stopPlayer s t).1) t' c k rfl hk
  exact ⟨_, by rw [hacc], rfl⟩

/-- C4 witness: the dropped-then-accepted sequence on concrete inputs. -/
theorem c4_stop_cooldown_witness :
    ((stopPlayer (mkPlayer 0) 0).1).isStopped = true ∧
    chunkSamples chunk8 = some 3 ∧
    ∃ u : PlaybackUnit,
      (scheduleChunk (cooldownElapsed (stopPlayer (mkPlayer 0) 0).1) 0 chunk8).2.2 = some u ∧
      u.dur = ((3 : ℕ) : ℚ) / 24000 :=
  ⟨rfl, by decide, c4_stop_cooldown.2.2.2.2 (mkPlayer 0) 0 0 chunk8 3 (by decide)⟩

/-- C7: A malformed chunk — base64 decode failure, odd decoded byte count,
or zero samples — is skipped by `scheduleChunk`: no unit is created, no
signal is emitted, the state is unchanged (the decode error is caught, so no
exception reaches the caller), and any subsequent chunk is scheduled exactly
as if the malformed one had never arrived. -/
theorem c7_malformed_skipped :
    ∀ (s : PlayerState) (t : ℚ) (c : String),
      (decodeBase64 c = none ∨
        ∃ bs, decodeBase64 c = some bs ∧ (bs.length % 2 ≠ 0 ∨ bs.length / 2 = 0)) →
      scheduleChunk s t c = (s, [], none) ∧
      ∀ (t' : ℚ) (c' : String),
        scheduleChunk ((scheduleChunk s t c).1) t' c' = scheduleChunk s t' c' := by
  intro s t c hmal
  have hnone : chunkSamples c = none := by
    unfold chunkSamples
    rcases hmal with hd | ⟨bs, hd, hbad⟩
    · rw [hd]
    · rw [hd]
      show (if bs.length % 2 = 0 ∧ bs.length / 2 ≠ 0 then some (bs.length / 2) else none) = none
      rcases hbad with h1 | h2
      · rw [if_neg (fun hc => h1 hc.1)]
      · rw [if_neg (fun hc => hc.2 h2)]
  have hskip := scheduleChunk_malformed s t c hnone
  exact ⟨hskip, fun t' c' => by rw [hskip]⟩

/-- C6 (amended): In every event trace that contains no `stop()` call,
`activeSourcesCount` equals the number of in-flight sources (started, `ended`
not yet fired) and is therefore never negative; a further `scheduleChunk`
emits the "started" signal (exactly one `true`) iff it accepts the chunk with
no source in flight — i.e. exactly once per contiguous run of playback — and
a further source completion emits the "stopped" signal (exactly one `false`)
iff it empties the in-flight set.  After a `stop()`, however, the halted
sources still fire `ended`, driving `activeSourcesCount` negative (see the
counterexample), so the unrestricted claim fails. -/
theorem c6_activecount (t0 : ℚ) (evs : List PlayerEvent)
    (hvalid : validTrace (mkPlayer t0) evs = true)
    (hnostop : ∀ e ∈ evs, isStopEvent e = false) :
    ((runTrace (mkPlayer t0) evs).activeSourcesCount =
        (runTrace (mkPlayer t0) evs).pendingEnded.length ∧
      0 ≤ (runTrace (mkPlayer t0) evs).activeSourcesCount)
    ∧ (∀ (t : ℚ) (c : String),
        (scheduleChunk (runTrace (mkPlayer t0) evs) t c).2.1 =
          (if ((scheduleChunk (runTrace (mkPlayer t0) evs) t c).2.2).isSome ∧
              (runTrace (mkPlayer t0) evs).pendingEnded = [] then [true] else []))
    ∧ (∀ uid : ℕ, uid ∈ (runTrace (mkPlayer t0) evs).pendingEnded →
        (handleEnded (runTrace (mkPlayer t0) evs) uid).2 =
          (if (runTrace (mkPlayer t0) evs).pendingEnded.length = 1 then [false]
           else [])) := by
  have hinv := countInv_runTrace evs (mkPlayer t0) rfl hvalid hnostop
  refine ⟨⟨hinv, by rw [hinv]; exact_mod_cast Nat.zero_le _⟩, ?_, ?_⟩
  · intro t c
    rcases scheduleChunk_cases (runTrace (mkPlayer t0) evs) t c with hrej | ⟨hs, k, hk⟩
    · rw [hrej]
      simp
    · rw [scheduleChunk_accepted _ t c k hs hk]
      by_cases hp : (runTrace (mkPlayer t0) evs).pendingEnded = []
      · have hz : (runTrace (mkPlayer t0) evs).activeSourcesCount = 0 := by
          rw [hinv, hp]; rfl
        simp [hz, hp]
      · have hz : (runTrace (mkPlayer t0) evs).activeSourcesCount ≠ 0 := by
          rw [hinv]
          have := List.length_pos.mpr hp
          omega
        have hz1 : (runTrace (mkPlayer t0) evs).activeSourcesCount + 1 ≠ 1 := by omega
        simp [hz1, hp]
  · intro uid hmem
    have hlen : ((runTrace (mkPlayer t0) evs).pendingEnded.erase uid).length =
        (runTrace (mkPlayer t0) evs).pendingEnded.length - 1 :=
      List.length_erase_of_mem hmem
    have hpos : 0 < (runTrace (mkPlayer t0) evs).pendingEnded.length :=
      List.length_pos.mpr (List.ne_nil_of_mem hmem)
    unfold handleEnded
    by_cases h1 : (runTrace (mkPlayer t0) evs).pendingEnded.length = 1
    · have : (runTrace (mkPlayer t0) evs).activeSourcesCount - 1 = 0 := by
        rw [hinv, h1]; rfl
      simp [this, h1]
    · have : (runTrace (mkPlayer t0) evs).activeSourcesCount - 1 ≠ 0 := by
        rw [hinv]
        omega
      simp [this, h1]

/-- C6 witness: a stop-free trace (one scheduled chunk whose source then
completes) keeps `activeSourcesCount` non-negative. -/
theorem c6_activecount_witness :
    validTrace (mkPlayer 0) [.schedule 0 chunk8, .ended 0] = true ∧
    0 ≤ (runTrace (mkPlayer 0) [.schedule 0 chunk8, .ended 0]).activeSourcesCount :=
  ⟨by decide, (c6_activecount 0 [.schedule 0 chunk8, .ended 0]
      (by decide) (by decide)).1.2⟩

/-- C6 counterexample: schedule one chunk, call `stop()` (which resets the
counter to 0 and halts the source), then let the halted source's `ended`
event fire — `activeSourcesCount` becomes `-1`, refuting "non-negative at all
times". -/
theorem c6_activecount_counterexample :
    validTrace (mkPlayer 0) [.schedule 0 chunk8, .stopCall 0, .ended 0] = true ∧
    (runTrace (mkPlayer 0)
        [.schedule 0 chunk8, .stopCall 0, .ended 0]).activeSourcesCount = -1 := by
  constructor
  · decide
  · decide

/-- C7 witness: an odd-length chunk ("AAAA" decodes to 3 bytes) is dropped
without touching the state. -/
theorem c7_malformed_skipped_witness :
    (∃ bs, decodeBase64 ("AAAA") = some bs ∧
      (bs.length % 2 ≠ 0 ∨ bs.length / 2 = 0)) ∧
    scheduleChunk (mkPlayer 0) 0 ("AAAA") = (mkPlayer 0, [], none) :=
  ⟨⟨[0, 0, 0], by decide, by decide⟩,
   (c7_malformed_skipped (mkPlayer 0) 0 ("AAAA")
      (Or.inr ⟨[0, 0, 0], by decide, by decide⟩)).1⟩

/-- C8 (amended): For x in [-1,1], encoding (clamp; negatives scaled by
32768, non-negatives by 32767, truncated to int16) and decoding (divide by
32768) differ from x by at most *two* quantization steps of 1/32768, and for
negative x by less than one step.  For positive x near 1 the mismatch between
the 32767 encode scale and the 32768 decode scale can push the error above
one step (see the counterexample), so "at most one quantization step" fails;
the round trip is lossy by design, not bit-exact. -/
theorem c8_roundtrip (x : ℚ) (h1 : -1 ≤ x) (h2 : x ≤ 1) :
    |int16ToFloat1 (float32ToInt16PCM1 x) - x| ≤ 2 / 32768 ∧
    (x < 0 → |int16ToFloat1 (float32ToInt16PCM1 x) - x| < 1 / 32768) := by
  have hcl : clamp1 x = x := by
    unfold clamp1
    rw [min_eq_right h2, max_eq_right h1]
  by_cases hx : x < 0
  · -- negative samples: value is ⌈x * 32768⌉, error in [0, 1/32768)
    have hq0 : x * 32768 < 0 := by nlinarith
    have hcb1 : (-32768 : ℤ) ≤ ⌈x * 32768⌉ := by
      have hle : ((-32768 : ℤ) : ℚ) ≤ x * 32768 := by push_cast; linarith
      calc (-32768 : ℤ) = ⌈((-32768 : ℤ) : ℚ)⌉ := (Int.ceil_intCast _).symm
        _ ≤ ⌈x * 32768⌉ := Int.ceil_le_ceil hle
    have hcb2 : ⌈x * 32768⌉ ≤ 32767 := Int.ceil_le.mpr (by push_cast; linarith)
    have hv : float32ToInt16PCM1 x = ⌈x * 32768⌉ := by
      show (if clamp1 x < 0 then wrapInt16 (qtrunc (clamp1 x * 32768))
            else wrapInt16 (qtrunc (clamp1 x * 32767))) = ⌈x * 32768⌉
      rw [hcl, if_pos hx]
      unfold qtrunc
      rw [if_neg (not_le.mpr hq0)]
      exact wrapInt16_eq_self _ hcb1 hcb2
    rw [hv]
    unfold int16ToFloat1
    have hle := Int.le_ceil (x * 32768)
    have hlt := Int.ceil_lt_add_one (x * 32768)
    have hnn : 0 ≤ (⌈x * 32768⌉ : ℚ) / 32768 - x := by
      have : x ≤ (⌈x * 32768⌉ : ℚ) / 32768 := by
        rw [le_div_iff₀ (by norm_num : (0 : ℚ) < 32768)]
        linarith
      linarith
    have hub : (⌈x * 32768⌉ : ℚ) / 32768 - x < 1 / 32768 := by
      rw [div_sub' _ _ _ (by norm_num : (32768 : ℚ) ≠ 0), div_lt_div_iff₀
        (by norm_num : (0 : ℚ) < 32768) (by norm_num : (0 : ℚ) < 32768)]
      nlinarith
    rw [abs_of_nonneg hnn]
    exact ⟨by linarith, fun _ => hub⟩
  · -- non-negative samples: value is ⌊x * 32767⌋, error in [0, 2/32768)
    push_neg at hx
    have hq0 : 0 ≤ x * 32767 := by nlinarith
    have hfb1 : 0 ≤ ⌊x * 32767⌋ := Int.floor_nonneg.mpr hq0
    have hfb2 : ⌊x * 32767⌋ ≤ 32767 := by
      have hle : x * 32767 ≤ ((32767 : ℤ) : ℚ) := by push_cast; nlinarith
      calc ⌊x * 32767⌋ ≤ ⌊((32767 : ℤ) : ℚ)⌋ := Int.floor_le_floor hle
        _ = 32767 := Int.floor_intCast _
    have hv : float32ToInt16PCM1 x = ⌊x * 32767⌋ := by
      show (if clamp1 x < 0 then wrapInt16 (qtrunc (clamp1 x * 32768))
            else wrapInt16 (qtrunc (clamp1 x * 32767))) = ⌊x * 32767⌋
      rw [hcl, if_neg (not_lt.mpr hx)]
      unfold qtrunc
      rw [if_pos hq0]
      exact wrapInt16_eq_self _ (by omega) hfb2
    rw [hv]
    unfold int16ToFloat1
    have hle := Int.floor_le (x * 32767)
    have hlt := Int.sub_one_lt_floor (x * 32767)
    have hnp : (⌊x * 32767⌋ : ℚ) / 32768 - x ≤ 0 := by
      have : (⌊x * 32767⌋ : ℚ) / 32768 ≤ x := by
        rw [div_le_iff₀ (by norm_num : (0 : ℚ) < 32768)]
        nlinarith
      linarith
    have hub : x - (⌊x * 32767⌋ : ℚ) / 32768 ≤ 2 / 32768 := by
      rw [sub_div' _ _ _ (by norm_num : (32768 : ℚ) ≠ 0)] at *
      rw [div_le_div_iff₀ (by norm_num : (0 : ℚ) < 32768) (by norm_num : (0 : ℚ) < 32768)]
      nlinarith
    rw [abs_of_nonpos hnp]
    exact ⟨by linarith, fun hneg => absurd hneg (not_lt.mpr hx)⟩

/-- C8 witness: the bound instantiated at x = 1/2. -/
theorem c8_roundtrip_witness :
    -1 ≤ (1 : ℚ) / 2 ∧ (1 : ℚ) / 2 ≤ 1 ∧
    |int16ToFloat1 (float32ToInt16PCM1 ((1 : ℚ) / 2)) - 1 / 2| ≤ 2 / 32768 :=
  ⟨by norm_num, by norm_num, (c8_roundtrip (1 / 2) (by norm_num) (by norm_num)).1⟩

/-- C8 counterexample: at x = 65533/65534 (inside [-1,1]) the encode yields
32766 and the decode 32766/32768, an error of 24575/536854528, which exceeds
one quantization step 1/32768 — refuting "differs by at most one quantization
step". -/
theorem c8_roundtrip_counterexample :
    -1 ≤ (65533 : ℚ) / 65534 ∧ (65533 : ℚ) / 65534 ≤ 1 ∧
    1 / 32768 <
      |int16ToFloat1 (float32ToInt16PCM1 ((65533 : ℚ) / 65534)) - 65533 / 65534| := by
  refine ⟨by norm_num, by norm_num, ?_⟩
  have hv : float32ToInt16PCM1 ((65533 : ℚ) / 65534) = 32766 := by
    norm_num [float32ToInt16PCM1, clamp1, qtrunc, wrapInt16]
  rw [hv]
  unfold int16ToFloat1
  rw [abs_of_nonpos (by norm_num)]
  norm_num

lemma processCalls_nothrow (throws : Dispatched → Bool)
    (hnothrow : ∀ d, throws d = false) :
    ∀ calls : List FunctionCall,
      processCalls true throws calls =
        (calls.filterMap callDispatch, calls.map ackOf, false) := by
  intro calls
  induction calls with
  | nil => rfl
  | cons fc rest ih =>
      cases hd : callDispatch fc with
      | none => simp [processCalls, hd, ih, List.filterMap_cons]
      | some d => simp [processCalls, hd, hnothrow d, ih, List.filterMap_cons]

/-- C2 (amended): Each named call of a tool-invocation message is dispatched
at most once (a call maps to at most one callback, applied once as the loop
reaches it).  When every local callback returns normally, each call produces
exactly one acknowledgment after its callback returns, carrying its own
correlation id and name, in message order.  However, the loop has no
try/catch: a callback that throws is dispatched once but gets NO
acknowledgment, and no later call of the same message is dispatched or
acknowledged — no generic failure string is ever produced (see the
counterexample). -/
theorem c2_tool_dispatch_ack :
    (∀ (throws : Dispatched → Bool) (calls : List FunctionCall),
        (∀ d, throws d = false) →
        processCalls true throws calls =
          (calls.filterMap callDispatch, calls.map ackOf, false))
    ∧ (∀ fc : FunctionCall, (ackOf fc).id = fc.id ∧ (ackOf fc).name = fc.name)
    ∧ (∀ (throws : Dispatched → Bool) (fc : FunctionCall) (rest : List FunctionCall)
        (d : Dispatched), callDispatch fc = some d → throws d = true →
        processCalls true throws (fc :: rest) = ([d], [], true)) := by
  refine ⟨fun throws calls h => processCalls_nothrow throws h calls,
    fun fc => ⟨rfl, rfl⟩, ?_⟩
  intro throws fc rest d hd ht
  simp [processCalls, hd, ht]

/-- C2 witness: a two-call message with callbacks that return normally —
one dispatch for the matching call, one acknowledgment per call, in order. -/
theorem c2_tool_dispatch_ack_witness :
    processCalls true (fun _ => false)
        [⟨"call-7", "updateNote", { noteId := some ("n1"), isTracking := some false }⟩,
         ⟨"call-9", "searchNotes", {}⟩] =
      ([.update (some ("n1"))
          (mkUpdates { noteId := some ("n1"), isTracking := some false })],
       [⟨"call-7", "updateNote", "Note updated."⟩, ⟨"call-9", "searchNotes", "Success"⟩],
       false) := by
  rw [c2_tool_dispatch_ack.1 (fun _ => false) _ (fun d => rfl)]
  decide

/-- C2 counterexample: a single `updateNote` call whose local callback throws
is dispatched, but the processing aborts with zero acknowledgments — the
claim's "still acknowledged, with a generic failure string" fails. -/
theorem c2_tool_dispatch_ack_counterexample :
    (processCalls true (fun _ => true)
        [⟨"call-7", "updateNote", { noteId := some ("n1"), isTracking := some false }⟩]).1 =
      [.update (some ("n1"))
        (mkUpdates { noteId := some ("n1"), isTracking := some false })] ∧
    (processCalls true (fun _ => true)
        [⟨"call-7", "updateNote", { noteId := some ("n1"), isTracking := some false }⟩]).2.1 =
      [] ∧
    (processCalls true (fun _ => true)
        [⟨"call-7", "updateNote", { noteId := some ("n1"), isTracking := some false }⟩]).2.2 =
      true := by
  refine ⟨?_, ?_, ?_⟩ <;> decide

/-- C10: A tool invocation whose name is neither `createNote` nor
`updateNote` selects no note-store callback, yet the loop still queues
exactly one acknowledgment carrying that invocation's id and name with the
untouched result string "Success", and continues with the remaining calls. -/
theorem c10_unknown_tool (throws : Dispatched → Bool) (fc : FunctionCall)
    (rest : List FunctionCall)
    (h1 : fc.name ≠ "createNote") (h2 : fc.name ≠ "updateNote") :
    callDispatch fc = none ∧
    processCalls true throws (fc :: rest) =
      ((processCalls true throws rest).1,
       ⟨fc.id, fc.name, "Success"⟩ :: (processCalls true throws rest).2.1,
       (processCalls true throws rest).2.2) := by
  have hd : callDispatch fc = none := by
    unfold callDispatch
    rw [if_neg h1, if_neg h2]
  refine ⟨hd, ?_⟩
  simp [processCalls, hd, ackOf, resultFor, h1, h2]

/-- C10 witness: a `deleteNote` invocation alone in a message — no dispatch,
one "Success" acknowledgment with its id. -/
theorem c10_unknown_tool_witness :
    processCalls true (fun _ => false) [⟨"id1", "deleteNote", {}⟩] =
      ([], [⟨"id1", "deleteNote", "Success"⟩], false) := by
  rw [(c10_unknown_tool (fun _ => false) ⟨"id1", "deleteNote", {}⟩ []
      (by decide) (by decide)).2]
  rfl

/-- A player with two units in flight, built by two `scheduleChunk` calls. -/
def twoInFlight : PlayerState :=
  (scheduleChunk ((scheduleChunk (mkPlayer 0) 0 chunk8).1) 0 chunk8).1

/-- C3: A message carrying an interruption signal makes `handleMessage`
invoke the scheduler's `stop()`: every in-flight unit is forcibly halted and
released (returned in `halted`), the in-flight set is cleared, the counter is
reset to 0, exactly one "stopped" (play-state `false`) signal is emitted, and
`nextStartTime` is reset to the current device time — already-scheduled audio
is discarded.  With 2 units in flight, both are halted. -/
theorem c3_interruption :
    (∀ (sessionOpen : Bool) (throws : Dispatched → Bool) (p : PlayerState) (t : ℚ),
      handleMessage sessionOpen throws (some p) t ⟨none, none, true⟩ =
        { player := some (stopPlayer p t).1, playerSignals := [false],
          halted := p.sources, audioOutputSignal := false,
          dispatched := [], acks := [], aborted := false })
    ∧ (∀ (p : PlayerState) (t : ℚ),
        (stopPlayer p t).1.sources = [] ∧ (stopPlayer p t).1.activeSourcesCount = 0 ∧
        (stopPlayer p t).1.nextStartTime = t ∧ (stopPlayer p t).1.isStopped = true ∧
        (stopPlayer p t).2.1 = [false] ∧ (stopPlayer p t).2.2 = p.sources)
    ∧ twoInFlight.sources.length = 2
    ∧ (handleMessage true (fun _ => false) (some twoInFlight) 0
        ⟨none, none, true⟩).halted.length = 2 := by
  refine ⟨fun sessionOpen throws p t => rfl,
    fun p t => ⟨rfl, rfl, rfl, rfl, rfl, rfl⟩, ?_, ?_⟩
  · decide
  · decide

/-- The `LiveManager` with every resource live. -/
def lmConnected : LMState := ⟨true, true, true, true, true⟩

/-- C9 (amended): `disconnect()` is valid in every state: it nulls out the
processor, the media stream, both audio contexts (closing the output context
halts playback) and the session promise, and is idempotent on state.  But the
`Disconnected` status is reported exactly once *per call* — the callback is
invoked unconditionally, so repeated calls repeat the report rather than
reporting exactly once overall (see the counterexample). -/
theorem c9_disconnect (s : LMState) :
    (disconnect s).1 = ⟨false, false, false, false, false⟩ ∧
    disconnect ((disconnect s).1) = disconnect s ∧
    (disconnect s).2 = [false] :=
  ⟨rfl, rfl, rfl⟩

/-- C9 counterexample: calling `disconnect` twice from a connected state
reports the Disconnected status twice (once per call), refuting "reported
exactly once" regardless of how many times it is called. -/
theorem c9_disconnect_counterexample :
    (disconnect lmConnected).2 = [false] ∧
    (disconnect ((disconnect lmConnected).1)).2 = [false] ∧
    ((disconnect lmConnected).2 ++ (disconnect ((disconnect lmConnected).1)).2).length = 2 :=
  ⟨rfl, rfl, rfl⟩

/-- C5 (amended): `handleMessage` passes each `updateNote` argument through
as a sparse field (absent = `none`); for `{isTracking: false}` the callback
receives exactly that one field.  Applying the update leaves every note field
whose argument is absent unchanged — except for the tracker-stop side effect:
when the update stops the actively hardware-tracked note (`isTracking: false`
passed, or a type other than `'tracker'` passed), `isTracking` is forced to
`false` and the final step count is recorded in `stepCount`, and if the
resulting type is `'text'` the count is appended to the content even though
`newContent` was absent (see the counterexample).  For notes that are not the
actively tracked one, absence always means "leave unchanged", and the
`{isTracking: false}` scenario changes exactly the `isTracking` field (plus
`stepCount` when the note was actively tracked). -/
theorem c5_sparse_update :
    (∀ args : ToolArgs,
      (mkUpdates args).content = args.newContent ∧ (mkUpdates args).type = args.type ∧
      (mkUpdates args).isTracking = args.isTracking ∧
      (mkUpdates args).isReminder = args.isReminder ∧
      (mkUpdates args).reminderTime = args.reminderTime ∧
      (mkUpdates args).visualPrompt = args.visualPrompt)
    ∧ (mkUpdates { noteId := some ("n1"), isTracking := some false } =
        { content := none, type := none, isTracking := some false, isReminder := none,
          reminderTime := none, visualPrompt := none })
    ∧ (∀ (parseTime : String → Option ℚ) (steps : ℕ) (n : Note) (u : NoteUpdates),
        (u.content = none → (applyNoteUpdate false steps parseTime n u).content = n.content)
        ∧ (u.type = none → (applyNoteUpdate false steps parseTime n u).type = n.type)
        ∧ (u.isTracking = none →
            (applyNoteUpdate false steps parseTime n u).isTracking = n.isTracking)
        ∧ (u.isReminder = none → u.reminderTime = none →
            (applyNoteUpdate false steps parseTime n u).isReminder = n.isReminder)
        ∧ (u.reminderTime = none → u.isReminder ≠ some false →
            (applyNoteUpdate false steps parseTime n u).reminderDate = n.reminderDate)
        ∧ (u.visualPrompt = none →
            (applyNoteUpdate false steps parseTime n u).imageUrl = n.imageUrl ∧
            (applyNoteUpdate false steps parseTime n u).isGeneratingImage =
              n.isGeneratingImage))
    ∧ (∀ (parseTime : String → Option ℚ) (steps : ℕ) (n : Note),
        applyNoteUpdate false steps parseTime n
            (mkUpdates { noteId := some ("n1"), isTracking := some false }) =
          { n with isTracking := some false })
    ∧ (∀ (parseTime : String → Option ℚ) (steps : ℕ) (n : Note), n.type = "tracker" →
        applyNoteUpdate true steps parseTime n
            (mkUpdates { noteId := some ("n1"), isTracking := some false }) =
          { n with isTracking := some false, stepCount := some steps }) := by
  refine ⟨fun args => ⟨rfl, rfl, rfl, rfl, rfl, rfl⟩, rfl, ?_, fun parseTime steps n => rfl, ?_⟩
  · intro parseTime steps n u
    refine ⟨?_, ?_, ?_, ?_, ?_, ?_⟩
    · intro h
      simp [applyNoteUpdate, h]
    · intro h
      simp [applyNoteUpdate, h]
    · intro h
      simp [applyNoteUpdate, h]
    · intro h h'
      simp [applyNoteUpdate, h, h']
    · intro h h'
      rcases hur : u.isReminder with _ | b
      · simp [applyNoteUpdate, h, hur]
      · cases b
        · exact absurd hur h'
        · simp [applyNoteUpdate, h, hur]
    · intro h
      simp [applyNoteUpdate, h]
  · intro parseTime steps n h
    show applyVisualStep none
        (applyIsReminderStep none
          (applyReminderTimeStep parseTime none
            (applyFinalStep (some steps)
              (applyTrackingStep (some false)
                (applyTypeStep none (applyContentStep none n)))))) =
      { n with isTracking := some false, stepCount := some steps }
    simp [applyTrackingStep, applyFinalStep, h]

/-- C5 witness: the `{isTracking: false}` scenario applied to the actively
tracked note — only `isTracking` and the recorded `stepCount` change. -/
theorem c5_sparse_update_witness :
    applyNoteUpdate true 7 (fun _ => none)
        { content := "Walk", type := "tracker", isTracking := some true, stepCount := none,
          isReminder := none, reminderDate := none, reminderDismissed := none,
          notificationsSent := [], imageUrl := none, isGeneratingImage := none }
        (mkUpdates { noteId := some ("n1"), isTracking := some false }) =
      { content := "Walk", type := "tracker", isTracking := some false, stepCount := some 7,
        isReminder := none, reminderDate := none, reminderDismissed := none,
        notificationsSent := [], imageUrl := none, isGeneratingImage := none } := by
  rw [c5_sparse_update.2.2.2.2 (fun _ => none) 7
      { content := "Walk", type := "tracker", isTracking := some true, stepCount := none,
        isReminder := none, reminderDate := none, reminderDismissed := none,
        notificationsSent := [], imageUrl := none, isGeneratingImage := none } rfl]

/-- C5 counterexample: an `updateNote` whose arguments are only the note id
and `type: "text"`, applied to the actively tracked note, changes `content`
(the final step count is appended) and `isTracking` even though the
`newContent` and `isTracking` arguments are both absent — refuting "every
argument field absent leaves the corresponding note field unchanged". -/
theorem c5_sparse_update_counterexample :
    (mkUpdates { noteId := some ("n1"), type := some ("text") }).content = none ∧
    (mkUpdates { noteId := some ("n1"), type := some ("text") }).isTracking = none ∧
    (applyNoteUpdate true 7 (fun _ => none)
        { content := "Walk", type := "tracker", isTracking := some true, stepCount := none,
          isReminder := none, reminderDate := none, reminderDismissed := none,
          notificationsSent := [], imageUrl := none, isGeneratingImage := none }
        (mkUpdates { noteId := some ("n1"), type := some ("text") })).content =
      "Walk \n(Final Count: 7 steps)" ∧
    (applyNoteUpdate true 7 (fun _ => none)
        { content := "Walk", type := "tracker", isTracking := some true, stepCount := none,
          isReminder := none, reminderDate := none, reminderDismissed := none,
          notificationsSent := [], imageUrl := none, isGeneratingImage := none }
        (mkUpdates { noteId := some ("n1"), type := some ("text") })).isTracking =
      some false := by
  refine ⟨rfl, rfl, ?_, rfl⟩
  rfl

end Chronos
